import Mathlib

/-!
Verification of the "neurotic" perceptron playground (src/neurotic.py).

The program is a single-file interactive editor for small signal graphs made
of Switches, Perceptrons and Lights connected by wires, re-evaluated every
frame.  This file shallowly embeds the data model, the connection registry,
the pointer-event interaction code and the per-tick evaluation engine, and
proves the frozen claims about them.

Modelling conventions, justified against the source:
* Python floats are modelled as rationals (`ℚ`).  Every arithmetic operation
  the claims touch (weighted sums with small literal weights, toggling
  `1 - output_value`) is exact in ℚ, matching Python float behaviour on the
  concrete inputs used.
* Object references (`self`, `source_obj`, `target_obj`,
  `connection_start_obj`) are modelled as indices into the fixed
  `all_objects` list; entities are never created or destroyed in-session, so
  indices are stable and equality of references is equality of indices.
* Cached port geometry (`input_nodes_pos`, `_input_node_rects`,
  `_output_node_rect`, button rects, `toggle_rect`) is recomputed by
  `_update_node_positions` after every mutation of `rect` or `num_inputs`,
  so the cache always equals a pure function of the current `rect` and
  `num_inputs`; we model it as that function.  The node-y computation
  `int(rect.height / (n+1) * (i+1))` agrees exactly with integer floor
  division `(height * (i+1)) / (n+1)` for the fixed height 80 and all
  1 ≤ n+1 ≤ 9 (checked exhaustively), so the Int model is faithful.
-/

/-- Model of `pygame.Rect`: axis-aligned rectangle with integer coordinates. -/
structure Rect where
  x : Int
  y : Int
  w : Int
  h : Int
  deriving DecidableEq

/-- Model of `Rect.collidepoint`: pygame counts a point as inside when
`left ≤ px < right` and `top ≤ py < bottom`. -/
def Rect.collidepoint (r : Rect) (p : Int × Int) : Bool :=
  decide (r.x ≤ p.1) && decide (p.1 < r.x + r.w) &&
  decide (r.y ≤ p.2) && decide (p.2 < r.y + r.h)

/-- One entry of the global `connections` list (a dict
`{'source_obj': ..., 'target_obj': ..., 'target_input_idx': ...}` in the
source); objects are modelled by their index in `all_objects`. -/
structure Conn where
  source_obj : Nat
  target_obj : Nat
  target_input_idx : Nat
  deriving DecidableEq

/-- The key the registry is (implicitly) indexed by. -/
def connKey (c : Conn) : Nat × Nat := (c.target_obj, c.target_input_idx)

/-- All registry keys, in order. -/
def regKeys (conns : List Conn) : List (Nat × Nat) := conns.map connKey

/-- Connection finalization on the registry (main loop, lines 596-602):
scan for the first entry with the given `(target, target_input_idx)`; if
found overwrite its `source_obj`, else append a fresh entry. -/
def finalizeConn (s t i : Nat) : List Conn → List Conn
  | [] => [⟨s, t, i⟩]
  | c :: rest =>
    if c.target_obj = t ∧ c.target_input_idx = i then
      { c with source_obj := s } :: rest
    else
      c :: finalizeConn s t i rest

/-- Remove the first entry matching `(t, i)` from a list, keeping the rest. -/
def removeFirstMatch (t i : Nat) : List Conn → List Conn
  | [] => []
  | c :: rest =>
    if c.target_obj = t ∧ c.target_input_idx = i then rest
    else c :: removeFirstMatch t i rest

/-- Registry removal as written in the source (Perceptron right-click /
decrement, Light right-click): iterate `range(len(connections)-1, -1, -1)`,
pop the first match found from the end, then `break`.  Scanning the reversed
list and removing the first match is exactly that loop. -/
def removeConnFromEnd (t i : Nat) (conns : List Conn) : List Conn :=
  (removeFirstMatch t i conns.reverse).reverse

/-- Model of `step_function` (line 64): `1 if x >= 0 else 0`. -/
def step_function (x : ℚ) : ℚ := if x ≥ 0 then 1 else 0

/-- State of a `Switch` object. -/
structure SwitchS where
  rect : Rect
  is_dragging : Bool
  drag_offset_x : Int
  drag_offset_y : Int
  output_value : ℚ
  deriving DecidableEq

/-- State of a `Perceptron` object.  `max_inputs = 8` and `min_inputs = 1`
are constant attributes in the source and appear as literals below. -/
structure PerceptronS where
  rect : Rect
  is_dragging : Bool
  drag_offset_x : Int
  drag_offset_y : Int
  num_inputs : Nat
  weights : List ℚ
  bias : ℚ
  output_value : ℚ
  input_values : List ℚ
  input_connections : List (Option Nat)
  deriving DecidableEq

/-- State of a `Light` object. -/
structure LightS where
  rect : Rect
  is_dragging : Bool
  drag_offset_x : Int
  drag_offset_y : Int
  input_value : ℚ
  input_connections : List (Option Nat)
  deriving DecidableEq

/-- A scene object (element of `all_objects`). -/
inductive EntityI where
  | sw : SwitchS → EntityI
  | pc : PerceptronS → EntityI
  | lt : LightS → EntityI
  deriving DecidableEq

/-- The `output_value` attribute, when the object has one (`Light` does
not). -/
def entOutputValue : EntityI → Option ℚ
  | .sw s => some s.output_value
  | .pc p => some p.output_value
  | .lt _ => none

/-- Model of `getattr(obj, 'output_value', 0)` for the object at index `i` of the
scene. -/
def outputValueAt (scene : List EntityI) (i : Nat) : ℚ :=
  match scene.get? i with
  | some e => (entOutputValue e).getD 0
  | none => 0

/-- The value `Perceptron.calculate_output` gathers for input slot `i`:
the source's `output_value` (0 when absent), 0 for an empty slot, 0 when the
index is out of bounds of `input_connections`. -/
def slotInputValue (scene : List EntityI) (p : PerceptronS) (i : Nat) : ℚ :=
  match p.input_connections.getD i none with
  | some j => outputValueAt scene j
  | none => 0

/-- The `current_inputs` list built by `calculate_output` (lines 252-262):
one entry per `i in range(num_inputs)`, with an explicit bounds check on
`input_connections`. -/
def gatherInputs (scene : List EntityI) (p : PerceptronS) : List ℚ :=
  (List.range p.num_inputs).map (fun i =>
    if i < p.input_connections.length then
      match p.input_connections.getD i none with
      | some j => outputValueAt scene j
      | none => 0
    else 0)

/-- Model of `sum(w * i for w, i in zip(ws, vs))`: Python's `sum` folds left from 0. -/
def dotSum (ws vs : List ℚ) : ℚ :=
  (ws.zip vs).foldl (fun acc wv => acc + wv.1 * wv.2) 0

/-- Model of `Perceptron.calculate_output` (lines 251-274): gather inputs, repair the
weight list by truncation / zero-padding when its length disagrees with the
gathered inputs, then threshold the weighted sum. -/
def Perceptron.calculate_output (scene : List EntityI) (p : PerceptronS) :
    PerceptronS :=
  let current_inputs := gatherInputs scene p
  let ws :=
    if p.weights.length = current_inputs.length then p.weights
    else p.weights.take current_inputs.length ++
         List.replicate (current_inputs.length - p.weights.length) 0
  let weighted_sum := dotSum ws current_inputs + p.bias
  { p with input_values := current_inputs, weights := ws,
           output_value := step_function weighted_sum }

/-- Model of `Light.update_state` (lines 499-506).  The source indexes
`input_connections[0]` directly, which raises `IndexError` on an empty list;
`none` models that (the list is `[None]` at construction and its length is
never changed, so the error branch is unreachable in-session). -/
def Light.update_state (scene : List EntityI) (l : LightS) : Option LightS :=
  match l.input_connections.get? 0 with
  | none => none
  | some src =>
    some { l with input_value :=
      match src with
      | some j => outputValueAt scene j
      | none => 0 }

/-- The `'+'` button branch of `Perceptron.handle_event` (lines 155-166):
below the cap, append one freshly-sampled weight `w`, an empty slot and a
zero input value; at the cap report handled without change.  The returned
Bool is the handler's `return True`. -/
def Perceptron.increment_inputs (p : PerceptronS) (w : ℚ) :
    Bool × PerceptronS :=
  if p.num_inputs < 8 then
    (true, { p with
             num_inputs := p.num_inputs + 1,
             weights := p.weights ++ [w],
             input_connections := p.input_connections ++ [none],
             input_values := p.input_values ++ [0] })
  else (true, p)

/-- The `'-'` button branch of `Perceptron.handle_event` (lines 169-193):
above the floor, pop the last weight / slot / input value, and when the
popped slot held a source, remove the registry entry targeting
`(self, new num_inputs)` scanning from the end; at the floor report handled
without change.  `selfId` is this perceptron's index in `all_objects`. -/
def Perceptron.decrement_inputs (selfId : Nat) (p : PerceptronS)
    (conns : List Conn) : Bool × PerceptronS × List Conn :=
  if 1 < p.num_inputs then
    let removed := p.input_connections.getLast?
    let p' := { p with
                num_inputs := p.num_inputs - 1,
                weights := p.weights.dropLast,
                input_connections := p.input_connections.dropLast,
                input_values := p.input_values.dropLast }
    match removed with
    | some (some _) =>
      (true, p', removeConnFromEnd selfId (p.num_inputs - 1) conns)
    | _ => (true, p', conns)
  else (true, p, conns)

/-- Model of `Perceptron.__init__` (lines 69-107).  `num_inputs` is clamped to a
minimum of 1; an explicit weight list must match the clamped count or a
`ValueError` is raised; omitted weights / bias are sampled (`rw`, `rb` model
the `random.uniform(-1, 1)` draws). -/
def mkPerceptron (x y : Int) (num_inputs : Int) (weights : Option (List ℚ))
    (bias : Option ℚ) (rw : Nat → ℚ) (rb : ℚ) : Except String PerceptronS :=
  let n : Nat := (max 1 num_inputs).toNat
  let ws? : Except String (List ℚ) :=
    match weights with
    | none => .ok ((List.range n).map rw)
    | some ws =>
      if ws.length = n then .ok ws
      else .error "Initial weights length does not match num_inputs"
  match ws? with
  | .error e => .error e
  | .ok ws => .ok
    { rect := ⟨x, y, 60, 80⟩, is_dragging := false,
      drag_offset_x := 0, drag_offset_y := 0,
      num_inputs := n, weights := ws,
      bias := (match bias with | none => rb | some b => b),
      output_value := 0,
      input_values := List.replicate n 0,
      input_connections := List.replicate n none }

/-- Perceptron input node `i`: center `(rect.left - 5, rect.top +
int(height/(n+1)*(i+1)))`, hit rect of radius 5 around it
(`_update_node_positions`, lines 109-129). -/
def pcInputNodeRect (p : PerceptronS) (i : Nat) : Rect :=
  let node_y := p.rect.y + (p.rect.h * (Int.ofNat i + 1)) / (Int.ofNat p.num_inputs + 1)
  ⟨p.rect.x - 10, node_y - 5, 10, 10⟩

/-- Model of `Perceptron.get_input_node_rect` (lines 143-146): `None` out of range. -/
def pcGetInputNodeRect (p : PerceptronS) (i : Nat) : Option Rect :=
  if i < p.num_inputs then some (pcInputNodeRect p i) else none

/-- Perceptron output node position `(rect.right + 6, rect.centery)`. -/
def pcOutputNodePos (p : PerceptronS) : Int × Int :=
  (p.rect.x + p.rect.w + 6, p.rect.y + p.rect.h / 2)

/-- Perceptron output node hit rect (radius 6). -/
def pcOutputNodeRect (p : PerceptronS) : Rect :=
  ⟨(pcOutputNodePos p).1 - 6, (pcOutputNodePos p).2 - 6, 12, 12⟩

/-- The `'+'` button rect: 15x15, top-right at `(rect.right - 3, rect.top + 3)`. -/
def pcPlusRect (p : PerceptronS) : Rect :=
  ⟨p.rect.x + p.rect.w - 3 - 15, p.rect.y + 3, 15, 15⟩

/-- The `'-'` button rect: 15x15, top-right 3px left of the `'+'` button. -/
def pcMinusRect (p : PerceptronS) : Rect :=
  ⟨p.rect.x + p.rect.w - 3 - 15 - 3 - 15, p.rect.y + 3, 15, 15⟩

/-- Switch output node position `(rect.right + 6, rect.centery)`. -/
def swOutputNodePos (s : SwitchS) : Int × Int :=
  (s.rect.x + s.rect.w + 6, s.rect.y + s.rect.h / 2)

/-- Switch output node hit rect (radius 6). -/
def swOutputNodeRect (s : SwitchS) : Rect :=
  ⟨(swOutputNodePos s).1 - 6, (swOutputNodePos s).2 - 6, 12, 12⟩

/-- Switch toggle area: the body rect shrunk by an 8px margin. -/
def swToggleRect (s : SwitchS) : Rect :=
  ⟨s.rect.x + 8, s.rect.y + 8, s.rect.w - 16, s.rect.h - 16⟩

/-- Light input node: center `(rect.left - 5, rect.centery)`, radius 5. -/
def ltInputNodeRect (l : LightS) : Rect :=
  ⟨l.rect.x - 10, l.rect.y + l.rect.h / 2 - 5, 10, 10⟩

/-- Model of `Light.get_input_node_rect` (lines 457-461): only index 0 is valid. -/
def ltGetInputNodeRect (l : LightS) (i : Nat) : Option Rect :=
  if i = 0 then some (ltInputNodeRect l) else none

/-- Model of `get_input_node_rect` dispatched on the object kind (a Switch has no
such method and is filtered by the `isinstance` check at the call sites). -/
def entGetInputNodeRect : EntityI → Nat → Option Rect
  | .pc p, i => pcGetInputNodeRect p i
  | .lt l, i => ltGetInputNodeRect l i
  | .sw _, _ => none

/-- Model of `getattr(obj, 'num_inputs', 0)`: a Switch has no `num_inputs`. -/
def entNumInputs : EntityI → Nat
  | .pc p => p.num_inputs
  | .lt _ => 1
  | .sw _ => 0

/-- The hit test the finalization scan performs for one input port:
`input_rect and input_rect.collidepoint(pos)`. -/
def entInputHit (e : EntityI) (i : Nat) (pos : Int × Int) : Bool :=
  match entGetInputNodeRect e i with
  | some r => r.collidepoint pos
  | none => false

/-- Whole program state: `all_objects`, `connections` and
`global_connection_state`. -/
structure GState where
  objects : List EntityI
  connections : List Conn
  is_drawing_connection : Bool
  connection_start_obj : Option Nat
  connection_start_pos : Option (Int × Int)
  deriving DecidableEq

/-- A pygame pointer event: `MOUSEBUTTONDOWN` / `MOUSEBUTTONUP` with a
button number (1 = left, 3 = right), or `MOUSEMOTION`. -/
inductive PEvent where
  | down : Nat → Int × Int → PEvent
  | up : Nat → Int × Int → PEvent
  | motion : Int × Int → PEvent
  deriving DecidableEq

/-- Replace the object at index `i`. -/
def setObj (g : GState) (i : Nat) (e : EntityI) : GState :=
  { g with objects := g.objects.set i e }

/-- Model of `Switch.handle_event` (lines 353-407).  `i` is the switch's index in
`all_objects`. -/
def handleSwitch (g : GState) (i : Nat) (s : SwitchS) : PEvent → Bool × GState
  | .down b pos =>
    if (swOutputNodeRect s).collidepoint pos then
      if b = 1 then
        (true, { g with
                 is_drawing_connection := true,
                 connection_start_obj := some i,
                 connection_start_pos := some (swOutputNodePos s) })
      else (false, g)
    else if b = 1 then
      if (swToggleRect s).collidepoint pos then
        if ¬ g.is_drawing_connection then
          (true, setObj g i (.sw { s with output_value := 1 - s.output_value }))
        else (false, g)
      else if s.rect.collidepoint pos then
        (true, setObj g i (.sw { s with
                is_dragging := true,
                drag_offset_x := s.rect.x - pos.1,
                drag_offset_y := s.rect.y - pos.2 }))
      else (false, g)
    else if b = 3 then
      if s.rect.collidepoint pos then (true, g) else (false, g)
    else (false, g)
  | .up b _ =>
    if b = 1 ∧ s.is_dragging then
      (true, setObj g i (.sw { s with is_dragging := false }))
    else (false, g)
  | .motion pos =>
    if s.is_dragging then
      (true, setObj g i (.sw { s with rect := { s.rect with
              x := pos.1 + s.drag_offset_x, y := pos.2 + s.drag_offset_y } }))
    else (false, g)

/-- Model of `Perceptron.handle_event` (lines 151-248).  `rw` models the
`random.uniform(-1, 1)` draw consumed if the `'+'` button fires.  The
right-click branch indexes `input_connections[k]` directly for a hit node
`k < num_inputs`; in every in-session state `input_connections` has length
`num_inputs`, so `getD` agrees with it. -/
def handlePerceptron (g : GState) (i : Nat) (p : PerceptronS) (rw : ℚ) :
    PEvent → Bool × GState
  | .down b pos =>
    if b = 1 ∧ (pcPlusRect p).collidepoint pos then
      (true, setObj g i (.pc (Perceptron.increment_inputs p rw).2))
    else if b = 1 ∧ (pcMinusRect p).collidepoint pos then
      let r := Perceptron.decrement_inputs i p g.connections
      (true, { setObj g i (.pc r.2.1) with connections := r.2.2 })
    else if b = 3 then
      match (List.range p.num_inputs).find?
          (fun k => (pcInputNodeRect p k).collidepoint pos) with
      | some k =>
        if p.input_connections.getD k none ≠ none then
          (true, { setObj g i
                     (.pc { p with input_connections := p.input_connections.set k none })
                   with connections := removeConnFromEnd i k g.connections })
        else (true, g)
      | none => (false, g)
    else if b = 1 then
      if (pcOutputNodeRect p).collidepoint pos then
        (true, { g with
                 is_drawing_connection := true,
                 connection_start_obj := some i,
                 connection_start_pos := some (pcOutputNodePos p) })
      else if ¬ g.is_drawing_connection ∧
          (List.range p.num_inputs).any
            (fun k => (pcInputNodeRect p k).collidepoint pos) then
        (true, g)
      else if p.rect.collidepoint pos then
        (true, setObj g i (.pc { p with
                is_dragging := true,
                drag_offset_x := p.rect.x - pos.1,
                drag_offset_y := p.rect.y - pos.2 }))
      else (false, g)
    else (false, g)
  | .up b _ =>
    if p.is_dragging ∧ b = 1 then
      (true, setObj g i (.pc { p with is_dragging := false }))
    else (false, g)
  | .motion pos =>
    if p.is_dragging then
      (true, setObj g i (.pc { p with rect := { p.rect with
              x := pos.1 + p.drag_offset_x, y := pos.2 + p.drag_offset_y } }))
    else (false, g)

/-- Model of `DraggableObject.handle_event` (lines 25-53), the base-class logic a
Light runs first via `super()`: note it starts a drag on a button-down of
ANY button anywhere in the body rect, and stops on ANY button-up. -/
def handleBase (g : GState) (i : Nat) (l : LightS) : PEvent → Bool × GState
  | .down _ pos =>
    if l.rect.collidepoint pos then
      (true, setObj g i (.lt { l with
              is_dragging := true,
              drag_offset_x := l.rect.x - pos.1,
              drag_offset_y := l.rect.y - pos.2 }))
    else (false, g)
  | .up _ _ =>
    if l.is_dragging then
      (true, setObj g i (.lt { l with is_dragging := false }))
    else (false, g)
  | .motion pos =>
    if l.is_dragging then
      (true, setObj g i (.lt { l with rect := { l.rect with
              x := pos.1 + l.drag_offset_x, y := pos.2 + l.drag_offset_y } }))
    else (false, g)

/-- Model of `Light.handle_event` (lines 463-497): base dragging logic first, then
input-node clicks.  The right-click branch indexes `input_connections[0]`
directly; the list always has length 1 in-session, so `getD` agrees. -/
def handleLight (g : GState) (i : Nat) (l : LightS) (e : PEvent) :
    Bool × GState :=
  let base := handleBase g i l e
  if base.1 then base
  else
    match e with
    | .down b pos =>
      if (ltInputNodeRect l).collidepoint pos then
        if b = 3 then
          if l.input_connections.getD 0 none ≠ none then
            (true, { setObj g i
                       (.lt { l with input_connections := l.input_connections.set 0 none })
                     with connections := removeConnFromEnd i 0 g.connections })
          else (true, g)
        else if b = 1 then
          if ¬ g.is_drawing_connection then (true, g) else (false, g)
        else (false, g)
      else (false, g)
    | _ => (false, g)

/-- Offer one event to the object at index `i`. -/
def handleAt (g : GState) (i : Nat) (e : PEvent) (rw : ℚ) : Bool × GState :=
  match g.objects.get? i with
  | some (.sw s) => handleSwitch g i s e
  | some (.pc p) => handlePerceptron g i p rw e
  | some (.lt l) => handleLight g i l e
  | none => (false, g)

/-- Model of `for obj in reversed(all_objects): if obj.handle_event(...): break`
(lines 615-620), over an explicit index list. -/
def dispatchAux (e : PEvent) (rw : ℚ) : List Nat → GState → GState
  | [], g => g
  | i :: rest, g =>
    let r := handleAt g i e rw
    if r.1 then r.2 else dispatchAux e rw rest r.2

/-- Dispatch one event to the objects in reverse list order. -/
def dispatchEvent (g : GState) (e : PEvent) (rw : ℚ) : GState :=
  dispatchAux e rw (List.range g.objects.length).reverse g

/-- The finalization scan (lines 580-605): first object in `all_objects`
order (Perceptron or Light only) with an input-node rect containing the
release position, together with the input index. -/
def findTargetAux (pos : Int × Int) : List EntityI → Nat → Option (Nat × Nat)
  | [], _ => none
  | e :: rest, idx =>
    match (List.range (entNumInputs e)).find? (fun i => entInputHit e i pos) with
    | some i => some (idx, i)
    | none => findTargetAux pos rest (idx + 1)

/-- Scan all objects for the connection target. -/
def findTarget (objs : List EntityI) (pos : Int × Int) : Option (Nat × Nat) :=
  findTargetAux pos objs 0

/-- Overwrite input slot `i` of an entity with a new source, exactly when
`hasattr(target, 'input_connections') and i < len(input_connections)`
(line 591); otherwise the object is left unchanged (the source prints an
error). -/
def entSetInputSlot (e : EntityI) (i : Nat) (src : Option Nat) : EntityI :=
  match e with
  | .pc p =>
    if i < p.input_connections.length then
      .pc { p with input_connections := p.input_connections.set i src }
    else .pc p
  | .lt l =>
    if i < l.input_connections.length then
      .lt { l with input_connections := l.input_connections.set i src }
    else .lt l
  | .sw s => .sw s

/-- The global `MOUSEBUTTONUP` connection-finalization branch (lines
574-610): find a target input port under the release position; on a hit,
overwrite the slot and update/insert the registry entry; in all cases reset
the transient wire-draw state.  `connection_start_obj` is always set while
a wire-draw is active (both starters set it together with the flag), so the
`none` case is unreachable when this runs. -/
def finalizeUp (g : GState) (pos : Int × Int) : GState :=
  let g' :=
    match g.connection_start_obj with
    | none => g
    | some startIdx =>
      match findTarget g.objects pos with
      | none => g
      | some ti =>
        { g with
          objects :=
            (match g.objects.get? ti.1 with
             | some e => g.objects.set ti.1 (entSetInputSlot e ti.2 (some startIdx))
             | none => g.objects),
          connections := finalizeConn startIdx ti.1 ti.2 g.connections }
  { g' with is_drawing_connection := false, connection_start_obj := none,
            connection_start_pos := none }

/-- Per-event processing of the main loop (lines 568-620): a button-up
while a wire-draw is active is consumed by the finalization branch
(`handled_by_ui = True`); every other event is dispatched to the objects. -/
def processEvent (g : GState) (e : PEvent) (rw : ℚ) : GState :=
  match e with
  | .up _ pos =>
    if g.is_drawing_connection then finalizeUp g pos else dispatchEvent g e rw
  | _ => dispatchEvent g e rw

/-- One step of the Perceptron pass: run `calculate_output` on the object at
index `i` when it is a Perceptron, in place. -/
def updAtP (s : List EntityI) (i : Nat) : List EntityI :=
  match s.get? i with
  | some (.pc p) => s.set i (.pc (Perceptron.calculate_output s p))
  | _ => s

/-- Fold a pass over a list of indices. -/
def passFold (s : List EntityI) (l : List Nat) : List EntityI :=
  l.foldl updAtP s

/-- Pass 1 of the tick (lines 624-625): every Perceptron, in entity-list
order, reading whatever the scene holds at that moment. -/
def perceptronPass (s : List EntityI) : List EntityI :=
  passFold s (List.range s.length)

/-- One step of the Light pass (`update_state` on Lights); the `none`
branch of `update_state` (empty slot list) cannot occur in-session. -/
def updAtL (s : List EntityI) (i : Nat) : List EntityI :=
  match s.get? i with
  | some (.lt l) =>
    match Light.update_state s l with
    | some l' => s.set i (.lt l')
    | none => s
  | _ => s

/-- Pass 2 of the tick (lines 627-628): every Light, in entity-list order. -/
def lightPass (s : List EntityI) : List EntityI :=
  (List.range s.length).foldl updAtL s

/-- One evaluation tick: Perceptron pass then Light pass. -/
def tick (s : List EntityI) : List EntityI :=
  lightPass (perceptronPass s)

/-- Model of `Switch.__init__` (lines 312-332): a 40x40 body, output off. -/
def initSwitch (x y : Int) : SwitchS :=
  ⟨⟨x, y, 40, 40⟩, false, 0, 0, 0⟩

/-- Model of `Light.__init__` (lines 430-440): rect centered on `(x, y)`, one empty
input slot. -/
def initLight (x y : Int) : LightS :=
  ⟨⟨x - 20, y - 20, 40, 40⟩, false, 0, 0, 0, [none]⟩

/-- A freshly constructed Perceptron with `weights=None, bias=None` and the
given random draws (`__init__`, lines 69-107), for `n ≥ 1` requested
inputs. -/
def initPerceptron (x y : Int) (n : Nat) (ws : List ℚ) (b : ℚ) : PerceptronS :=
  ⟨⟨x, y, 60, 80⟩, false, 0, 0, n, ws, b, 0,
   List.replicate n 0, List.replicate n none⟩

/-- The initial `all_objects` list (lines 541-549); `w1 w2 b1` are
perceptron1's random weights and bias, `w3 b2` perceptron2's. -/
def initObjects (w1 w2 w3 b1 b2 : ℚ) : List EntityI :=
  [.sw (initSwitch 50 50), .sw (initSwitch 50 150),
   .pc (initPerceptron 200 100 2 [w1, w2] b1),
   .pc (initPerceptron 400 200 1 [w3] b2),
   .lt (initLight 600 100), .lt (initLight 600 250)]

/-- The initial program state (lines 549-557): empty registry, no wire-draw
in progress. -/
def initGState (w1 w2 w3 b1 b2 : ℚ) : GState :=
  ⟨initObjects w1 w2 w3 b1 b2, [], false, none, none⟩

/-- The `is_dragging` flag of an object. -/
def entIsDragging : EntityI → Bool
  | .sw s => s.is_dragging
  | .pc p => p.is_dragging
  | .lt l => l.is_dragging

/-- How many objects currently believe they own the pointer. -/
def countDragging (g : GState) : Nat :=
  (g.objects.filter entIsDragging).length

/-- Reachability of a registry state: the registry starts empty (line 550)
and is mutated at exactly four places, all of which are `finalizeConn`
(connection finalization) or `removeConnFromEnd` (Perceptron right-click,
Perceptron decrement, Light right-click). -/
inductive RegReachable : List Conn → Prop
  | init : RegReachable []
  | finalize (s t i : Nat) {r : List Conn} :
      RegReachable r → RegReachable (finalizeConn s t i r)
  | remove (t i : Nat) {r : List Conn} :
      RegReachable r → RegReachable (removeConnFromEnd t i r)

/-! ### Registry lemmas -/

theorem connKey_eq_iff (c : Conn) (t i : Nat) :
    connKey c = (t, i) ↔ c.target_obj = t ∧ c.target_input_idx = i := by
  simp [connKey, Prod.ext_iff]

theorem finalizeConn_of_mem (s t i : Nat) (r : List Conn)
    (h : (t, i) ∈ regKeys r) :
    regKeys (finalizeConn s t i r) = regKeys r ∧
      (finalizeConn s t i r).length = r.length := by
  induction r with
  | nil => simp [regKeys] at h
  | cons c rest ih =>
    by_cases hc : c.target_obj = t ∧ c.target_input_idx = i
    · simp [finalizeConn, hc, regKeys, connKey]
    · have h' : (t, i) ∈ regKeys rest := by
        rcases List.mem_cons.mp h with h1 | h1
        · exact absurd ((connKey_eq_iff c t i).mp h1.symm) hc
        · exact h1
      have := ih h'
      simp [finalizeConn, hc, regKeys] at this ⊢
      exact this

theorem regKeys_finalizeConn_of_not_mem (s t i : Nat) (r : List Conn)
    (h : (t, i) ∉ regKeys r) :
    regKeys (finalizeConn s t i r) = regKeys r ++ [(t, i)] := by
  induction r with
  | nil => simp [finalizeConn, regKeys, connKey]
  | cons c rest ih =>
    have hc : ¬(c.target_obj = t ∧ c.target_input_idx = i) := by
      intro hc
      exact h (List.mem_cons.mpr (Or.inl ((connKey_eq_iff c t i).mpr hc).symm))
    have h' : (t, i) ∉ regKeys rest := fun hm => h (List.mem_cons.mpr (Or.inr hm))
    have ih' := ih h'
    simp only [regKeys] at ih' ⊢
    simp only [finalizeConn, if_neg hc, List.map_cons, List.cons_append]
    rw [ih']

theorem nodup_finalizeConn (s t i : Nat) (r : List Conn)
    (h : (regKeys r).Nodup) : (regKeys (finalizeConn s t i r)).Nodup := by
  by_cases hm : (t, i) ∈ regKeys r
  · rw [(finalizeConn_of_mem s t i r hm).1]; exact h
  · rw [regKeys_finalizeConn_of_not_mem s t i r hm]
    exact h.append (List.nodup_singleton _) (List.disjoint_singleton.mpr hm)

theorem removeFirstMatch_sublist (t i : Nat) (r : List Conn) :
    List.Sublist (removeFirstMatch t i r) r := by
  induction r with
  | nil => simp [removeFirstMatch]
  | cons c rest ih =>
    by_cases hc : c.target_obj = t ∧ c.target_input_idx = i
    · simp only [removeFirstMatch, if_pos hc]
      exact (List.Sublist.refl rest).cons c
    · simpa [removeFirstMatch, hc] using ih.cons₂ c

theorem removeConnFromEnd_sublist (t i : Nat) (r : List Conn) :
    List.Sublist (removeConnFromEnd t i r) r := by
  have h := (removeFirstMatch_sublist t i r.reverse).reverse
  simpa [removeConnFromEnd] using h

/-- C1: in every reachable registry state, no two entries share the same
`(target, target_input_index)` key; moreover, finalizing a connection onto a
key already present leaves the key list and the registry size unchanged
(the entry's source is overwritten in place rather than a second entry being
appended). -/
theorem claim_C1_registry_unique_target (r : List Conn) (h : RegReachable r) :
    (regKeys r).Nodup ∧
      ∀ s t i, (t, i) ∈ regKeys r →
        regKeys (finalizeConn s t i r) = regKeys r ∧
          (finalizeConn s t i r).length = r.length := by
  refine ⟨?_, fun s t i hm => finalizeConn_of_mem s t i r hm⟩
  induction h with
  | init => simp [regKeys]
  | finalize s t i _ ih => exact nodup_finalizeConn _ _ _ _ ih
  | remove t i _ ih =>
    exact ih.sublist (List.Sublist.map _ (removeConnFromEnd_sublist _ _ _))

/-- Witness for C1 at a concrete reachable registry: two successive
finalizations onto the same port `(2, 0)` leave a single-entry registry, and
a further finalization onto it keeps size 1. -/
theorem claim_C1_registry_unique_target_witness :
    (regKeys [⟨0, 2, 0⟩]).Nodup ∧
      regKeys (finalizeConn 5 2 0 [⟨0, 2, 0⟩]) = regKeys [⟨0, 2, 0⟩] ∧
      (finalizeConn 5 2 0 [⟨0, 2, 0⟩]).length = ([⟨0, 2, 0⟩] : List Conn).length := by
  have hr : RegReachable [⟨0, 2, 0⟩] :=
    RegReachable.finalize 0 2 0 RegReachable.init
  have h := claim_C1_registry_unique_target _ hr
  exact ⟨h.1, h.2 5 2 0 (by decide)⟩

/-! ### Evaluation-engine lemmas: a closed form for `calculate_output` -/

theorem foldl_mul_add_shift (l : List (ℚ × ℚ)) (a : ℚ) :
    l.foldl (fun acc wv => acc + wv.1 * wv.2) a =
      a + l.foldl (fun acc wv => acc + wv.1 * wv.2) 0 := by
  induction l generalizing a with
  | nil => simp
  | cons x xs ih =>
    simp only [List.foldl_cons]
    rw [ih (a + x.1 * x.2), ih (0 + x.1 * x.2)]
    ring

theorem dotSum_cons (w v : ℚ) (ws vs : List ℚ) :
    dotSum (w :: ws) (v :: vs) = w * v + dotSum ws vs := by
  simp only [dotSum, List.zip_cons_cons, List.foldl_cons]
  rw [foldl_mul_add_shift]
  ring

theorem dotSum_eq_sum (ws vs : List ℚ) (h : ws.length = vs.length) :
    dotSum ws vs = ∑ i in Finset.range vs.length, ws.getD i 0 * vs.getD i 0 := by
  induction ws generalizing vs with
  | nil =>
    cases vs with
    | nil => simp [dotSum]
    | cons v vs => simp at h
  | cons w ws ih =>
    cases vs with
    | nil => simp at h
    | cons v vs =>
      have h' : ws.length = vs.length := by simpa using h
      rw [dotSum_cons, ih vs h', List.length_cons, Finset.sum_range_succ']
      simp only [List.getD_cons_succ, List.getD_cons_zero]
      ring

theorem repaired_length (ws : List ℚ) (n : Nat) :
    (ws.take n ++ List.replicate (n - ws.length) 0).length = n := by
  simp only [List.length_append, List.length_take, List.length_replicate]
  omega

theorem repaired_getD (ws : List ℚ) (n i : Nat) (hi : i < n) :
    (ws.take n ++ List.replicate (n - ws.length) 0).getD i 0 = ws.getD i 0 := by
  rw [List.getD_eq_getElem?_getD, List.getD_eq_getElem?_getD]
  by_cases hw : i < ws.length
  · rw [List.getElem?_append_left (by simp only [List.length_take]; omega)]
    rw [List.getElem?_take]
    simp [hi]
  · rw [List.getElem?_append_right (by simp only [List.length_take]; omega)]
    rw [List.getElem?_replicate]
    rw [List.getElem?_eq_none (by omega)]
    by_cases hr : i - (List.take n ws).length < n - ws.length
    · rw [if_pos hr]
      rfl
    · rw [if_neg hr]

theorem gatherInputs_length (scene : List EntityI) (p : PerceptronS) :
    (gatherInputs scene p).length = p.num_inputs := by
  simp [gatherInputs]

theorem gatherInputs_getD (scene : List EntityI) (p : PerceptronS) (i : Nat)
    (hi : i < p.num_inputs) :
    (gatherInputs scene p).getD i 0 = slotInputValue scene p i := by
  rw [List.getD_eq_getElem?_getD]
  unfold gatherInputs
  rw [List.getElem?_map, List.getElem?_range hi]
  by_cases hb : i < p.input_connections.length
  · simp only [Option.map_some', Option.getD_some, if_pos hb, slotInputValue]
  · simp only [Option.map_some', Option.getD_some, if_neg hb, slotInputValue]
    rw [List.getD_eq_default _ _ (by omega)]

theorem calculate_output_closed (scene : List EntityI) (p : PerceptronS) :
    (Perceptron.calculate_output scene p).output_value =
      step_function ((∑ i in Finset.range p.num_inputs,
        p.weights.getD i 0 * slotInputValue scene p i) + p.bias) ∧
    (Perceptron.calculate_output scene p).weights.length = p.num_inputs ∧
    (Perceptron.calculate_output scene p).input_values.length = p.num_inputs := by
  unfold Perceptron.calculate_output
  by_cases h : p.weights.length = (gatherInputs scene p).length
  · simp only [if_pos h]
    refine ⟨?_, by rw [h, gatherInputs_length], by rw [gatherInputs_length]⟩
    rw [dotSum_eq_sum _ _ h, gatherInputs_length]
    congr 2
    refine Finset.sum_congr rfl (fun i hi => ?_)
    rw [gatherInputs_getD scene p i (Finset.mem_range.mp hi)]
  · simp only [if_neg h]
    refine ⟨?_, by rw [repaired_length, gatherInputs_length],
            by rw [gatherInputs_length]⟩
    rw [dotSum_eq_sum _ _ (by rw [repaired_length]), gatherInputs_length]
    congr 2
    refine Finset.sum_congr rfl (fun i hi => ?_)
    have hi' := Finset.mem_range.mp hi
    rw [gatherInputs_getD scene p i hi', repaired_getD _ _ _ hi']

/-- C2: with a consistent weight list, one evaluation step thresholds the
weighted sum of the current source outputs at 0: `output_value = 1` when
`Σ weights[i] * input_values[i] + bias ≥ 0` and `0` otherwise, where
`input_values[i]` is the source output of slot `i` (0 for an empty slot). -/
theorem claim_C2_weighted_threshold (scene : List EntityI) (p : PerceptronS)
    (h : p.weights.length = p.num_inputs) :
    (0 ≤ (∑ i in Finset.range p.num_inputs,
        p.weights.getD i 0 * slotInputValue scene p i) + p.bias →
      (Perceptron.calculate_output scene p).output_value = 1) ∧
    ((∑ i in Finset.range p.num_inputs,
        p.weights.getD i 0 * slotInputValue scene p i) + p.bias < 0 →
      (Perceptron.calculate_output scene p).output_value = 0) := by
  have hc := (calculate_output_closed scene p).1
  constructor
  · intro hs
    rw [hc]
    unfold step_function
    exact if_pos hs
  · intro hs
    rw [hc]
    unfold step_function
    exact if_neg (not_le.mpr hs)

/-- The AND-gate perceptron of the C2 witness: `weights = [1, 1]`,
`bias = -3/2`, input slots wired to the two switches at indices 0 and 1. -/
def andP : PerceptronS :=
  ⟨⟨200, 100, 60, 80⟩, false, 0, 0, 2, [1, 1], -(3/2 : ℚ), 0, [0, 0],
   [some 0, some 1]⟩

/-- A scene of two switches (outputs `a` and `b`) feeding `andP`. -/
def andScene (a b : ℚ) : List EntityI :=
  [.sw { initSwitch 50 50 with output_value := a },
   .sw { initSwitch 50 150 with output_value := b }, .pc andP]

/-- Witness for C2: the AND truth table `(1,1) → 1`, `(1,0) → 0`,
`(0,0) → 0`. -/
theorem claim_C2_weighted_threshold_witness :
    (Perceptron.calculate_output (andScene 1 1) andP).output_value = 1 ∧
    (Perceptron.calculate_output (andScene 1 0) andP).output_value = 0 ∧
    (Perceptron.calculate_output (andScene 0 0) andP).output_value = 0 := by
  refine ⟨(claim_C2_weighted_threshold (andScene 1 1) andP rfl).1 ?_,
          (claim_C2_weighted_threshold (andScene 1 0) andP rfl).2 ?_,
          (claim_C2_weighted_threshold (andScene 0 0) andP rfl).2 ?_⟩
  all_goals
    simp only [andP, andScene, slotInputValue, outputValueAt, entOutputValue,
      initSwitch, Finset.sum_range_succ, Finset.sum_range_zero, List.getD,
      List.get?, Option.getD_some]
    norm_num

/-- C10: the evaluation pass is total and defensive.
`calculate_output` always yields the thresholded sum
`Σ weights.getD i 0 * slotInputValue i + bias` over `i < num_inputs` —
a slot index beyond `input_connections` reads 0, a source without an
`output_value` attribute reads 0 (`slotInputValue`/`outputValueAt`), and a
weight index beyond `weights` contributes `getD`'s 0 because the mismatched
weight list is repaired in place to length `num_inputs` by
truncation / zero-padding (second conjunct).  `update_state` succeeds on
every light whose slot list is nonempty (it always has length 1
in-session) and is a pure read of the source's `output_value`. -/
theorem claim_C10_evaluation_total :
    (∀ (scene : List EntityI) (p : PerceptronS),
      (Perceptron.calculate_output scene p).output_value =
        step_function ((∑ i in Finset.range p.num_inputs,
          p.weights.getD i 0 * slotInputValue scene p i) + p.bias) ∧
      (Perceptron.calculate_output scene p).weights.length = p.num_inputs) ∧
    (∀ (scene : List EntityI) (l : LightS) (src : Option Nat)
      (rest : List (Option Nat)),
      l.input_connections = src :: rest →
      Light.update_state scene l = some { l with input_value :=
        (match src with | some j => outputValueAt scene j | none => 0) }) := by
  constructor
  · intro scene p
    exact ⟨(calculate_output_closed scene p).1,
           (calculate_output_closed scene p).2.1⟩
  · intro scene l src rest hl
    simp [Light.update_state, hl]

/-- Witness scene for C10: a single light at index 0 (an object with no
`output_value` attribute). -/
def defScene : List EntityI := [.lt (initLight 600 100)]

/-- Witness perceptron for C10: 2 inputs but 3 weights (length mismatch),
one slot list entry only (index 1 out of bounds), slot 0 referring to the
light. -/
def defP : PerceptronS :=
  ⟨⟨0, 0, 60, 80⟩, false, 0, 0, 2, [1, 2, 3], 1, 0, [], [some 0]⟩

/-- Witness scene for the light half of C10: one switch that is on. -/
def defScene2 : List EntityI := [.sw { initSwitch 50 50 with output_value := 1 }]

/-- Witness light for C10, wired to the switch at index 0. -/
def defL : LightS := { initLight 600 100 with input_connections := [some 0] }

/-- Witness for C10 at concrete degenerate inputs: the mismatched weights
are repaired to length 2, the missing attribute and the out-of-range index
both read 0, and the output is `step(1*0 + 2*0 + 1) = 1`; the light reads
its switch's output. -/
theorem claim_C10_evaluation_total_witness :
    (Perceptron.calculate_output defScene defP).output_value = 1 ∧
    (Perceptron.calculate_output defScene defP).weights.length = 2 ∧
    Light.update_state defScene2 defL = some { defL with input_value := 1 } := by
  refine ⟨?_, ?_, ?_⟩
  · rw [(claim_C10_evaluation_total.1 defScene defP).1]
    simp only [defScene, defP, slotInputValue, outputValueAt, entOutputValue,
      initLight, step_function, Finset.sum_range_succ, Finset.sum_range_zero,
      List.getD, List.get?, Option.getD_some, Option.getD_none]
    norm_num
  · exact (claim_C10_evaluation_total.1 defScene defP).2
  · have h := claim_C10_evaluation_total.2 defScene2 defL (some 0) [] rfl
    simpa using h

/-! ### Input-count mutation -/

theorem removeFirstMatch_append (t i : Nat) (l1 l2 : List Conn) (e : Conn)
    (h1 : ∀ c ∈ l1, ¬(c.target_obj = t ∧ c.target_input_idx = i))
    (he : e.target_obj = t) (hei : e.target_input_idx = i) :
    removeFirstMatch t i (l1 ++ e :: l2) = l1 ++ l2 := by
  induction l1 with
  | nil => simp [removeFirstMatch, he, hei]
  | cons c rest ih =>
    have hc := h1 c (List.mem_cons_self c rest)
    simp only [List.cons_append, removeFirstMatch, if_neg hc]
    exact congrArg (List.cons c)
      (ih (fun d hd => h1 d (List.mem_cons.mpr (Or.inr hd))))

theorem removeConnFromEnd_unique (t i : Nat) (l1 l2 : List Conn) (e : Conn)
    (h1 : ∀ c ∈ l1, ¬(c.target_obj = t ∧ c.target_input_idx = i))
    (h2 : ∀ c ∈ l2, ¬(c.target_obj = t ∧ c.target_input_idx = i))
    (he : e.target_obj = t) (hei : e.target_input_idx = i) :
    removeConnFromEnd t i (l1 ++ e :: l2) = l1 ++ l2 := by
  unfold removeConnFromEnd
  have hrev : (l1 ++ e :: l2).reverse = l2.reverse ++ e :: l1.reverse := by
    simp
  rw [hrev, removeFirstMatch_append t i l2.reverse l1.reverse e
      (fun c hc => h2 c (List.mem_reverse.mp hc)) he hei]
  simp

/-- C4: decrementing a Perceptron with more than one input removes exactly
the last element of `weights` and of `input_connections`, decrements
`num_inputs`, and, when the removed slot held a source and the registry
holds exactly one entry keyed `(self, num_inputs - 1)`, deletes exactly that
entry, preserving every other entry and their order. -/
theorem claim_C4_decrement_removes_last (selfId src : Nat) (p : PerceptronS)
    (l1 l2 : List Conn) (e : Conn)
    (hn : 1 < p.num_inputs)
    (hw : p.weights.length = p.num_inputs)
    (hc : p.input_connections.length = p.num_inputs)
    (hlast : p.input_connections.getLast? = some (some src))
    (he : e.target_obj = selfId)
    (hei : e.target_input_idx = p.num_inputs - 1)
    (h1 : ∀ c ∈ l1,
      ¬(c.target_obj = selfId ∧ c.target_input_idx = p.num_inputs - 1))
    (h2 : ∀ c ∈ l2,
      ¬(c.target_obj = selfId ∧ c.target_input_idx = p.num_inputs - 1)) :
    Perceptron.decrement_inputs selfId p (l1 ++ e :: l2) =
      (true,
       { p with
         num_inputs := p.num_inputs - 1,
         weights := p.weights.dropLast,
         input_connections := p.input_connections.dropLast,
         input_values := p.input_values.dropLast },
       l1 ++ l2) := by
  simp only [Perceptron.decrement_inputs, if_pos hn, hlast]
  rw [removeConnFromEnd_unique selfId (p.num_inputs - 1) l1 l2 e h1 h2 he hei]

/-- Witness for C4: a 2-input perceptron (index 3) whose slot 1 holds
source 7; the registry holds an unrelated entry and the entry `(3, 1)`. -/
theorem claim_C4_decrement_removes_last_witness :
    Perceptron.decrement_inputs 3
      ⟨⟨0, 0, 60, 80⟩, false, 0, 0, 2, [1, 2], 0, 0, [0, 0], [none, some 7]⟩
      [⟨7, 9, 0⟩, ⟨7, 3, 1⟩] =
      (true,
       ⟨⟨0, 0, 60, 80⟩, false, 0, 0, 1, [1], 0, 0, [0], [none]⟩,
       [⟨7, 9, 0⟩]) := by
  have h := claim_C4_decrement_removes_last 3 7
    ⟨⟨0, 0, 60, 80⟩, false, 0, 0, 2, [1, 2], 0, 0, [0, 0], [none, some 7]⟩
    [⟨7, 9, 0⟩] [] ⟨7, 3, 1⟩ (by decide) (by decide) (by decide) (by decide)
    (by decide) (by decide) (by decide) (by decide)
  simpa using h

/-- A `'+'`/`'-'` button press on a Perceptron, with the weight sampled for
an increment. -/
inductive PcOp where
  | inc : ℚ → PcOp
  | dec : PcOp

/-- Apply one button press to a perceptron and the registry. -/
def applyPcOp (selfId : Nat) :
    PerceptronS × List Conn → PcOp → PerceptronS × List Conn
  | (p, cs), .inc w => ((Perceptron.increment_inputs p w).2, cs)
  | (p, cs), .dec =>
    let r := Perceptron.decrement_inputs selfId p cs
    (r.2.1, r.2.2)

/-- Apply a finite sequence of button presses. -/
def applyPcOps (selfId : Nat) (st : PerceptronS × List Conn)
    (ops : List PcOp) : PerceptronS × List Conn :=
  ops.foldl (applyPcOp selfId) st

/-- The size invariant of C5: `num_inputs ∈ [1, 8]` and the weight and slot
lists have length `num_inputs`. -/
def pcSizeInv (p : PerceptronS) : Prop :=
  1 ≤ p.num_inputs ∧ p.num_inputs ≤ 8 ∧
    p.weights.length = p.num_inputs ∧
    p.input_connections.length = p.num_inputs

theorem applyPcOp_inv (selfId : Nat) (p : PerceptronS) (cs : List Conn)
    (o : PcOp) (h : pcSizeInv p) : pcSizeInv (applyPcOp selfId (p, cs) o).1 := by
  obtain ⟨h1, h2, h3, h4⟩ := h
  cases o with
  | inc w =>
    by_cases hn : p.num_inputs < 8
    · simp only [applyPcOp, Perceptron.increment_inputs, if_pos hn, pcSizeInv]
      simp only [List.length_append, List.length_singleton, h3, h4]
      exact ⟨by omega, by omega, trivial, trivial⟩
    · simp only [applyPcOp, Perceptron.increment_inputs, if_neg hn, pcSizeInv]
      exact ⟨h1, h2, h3, h4⟩
  | dec =>
    by_cases hn : 1 < p.num_inputs
    · cases hr : p.input_connections.getLast? with
      | none =>
        simp only [applyPcOp, Perceptron.decrement_inputs, if_pos hn, hr,
          pcSizeInv, List.length_dropLast, h3, h4]
        exact ⟨by omega, by omega, trivial, trivial⟩
      | some x =>
        cases x with
        | none =>
          simp only [applyPcOp, Perceptron.decrement_inputs, if_pos hn, hr,
            pcSizeInv, List.length_dropLast, h3, h4]
          exact ⟨by omega, by omega, trivial, trivial⟩
        | some j =>
          simp only [applyPcOp, Perceptron.decrement_inputs, if_pos hn, hr,
            pcSizeInv, List.length_dropLast, h3, h4]
          exact ⟨by omega, by omega, trivial, trivial⟩
    · simp only [applyPcOp, Perceptron.decrement_inputs, if_neg hn, pcSizeInv]
      exact ⟨h1, h2, h3, h4⟩

theorem applyPcOps_inv (selfId : Nat) (ops : List PcOp) :
    ∀ st : PerceptronS × List Conn, pcSizeInv st.1 →
      pcSizeInv (applyPcOps selfId st ops).1 := by
  induction ops with
  | nil =>
    intro st h
    simpa [applyPcOps] using h
  | cons o rest ih =>
    intro st h
    have hstep := applyPcOp_inv selfId st.1 st.2 o h
    have : applyPcOps selfId st (o :: rest) =
        applyPcOps selfId (applyPcOp selfId st o) rest := by
      simp [applyPcOps]
    rw [this]
    exact ih _ hstep

/-- C5: under any finite sequence of `'+'`/`'-'` presses starting from a
state with `num_inputs ∈ [1, 8]` and consistent list lengths, `num_inputs`
stays in `[1, 8]` and `len(weights) = len(input_slots) = num_inputs` after
every operation; at the cap the increment reports handled but changes
nothing, at the floor the decrement reports handled and changes neither the
perceptron nor the registry. -/
theorem claim_C5_input_count_invariant (selfId : Nat) (p : PerceptronS)
    (conns : List Conn) (ops : List PcOp) (w : ℚ) (h : pcSizeInv p) :
    pcSizeInv (applyPcOps selfId (p, conns) ops).1 ∧
    (p.num_inputs = 8 → Perceptron.increment_inputs p w = (true, p)) ∧
    (p.num_inputs = 1 →
      Perceptron.decrement_inputs selfId p conns = (true, p, conns)) := by
  refine ⟨applyPcOps_inv selfId ops (p, conns) h, ?_, ?_⟩
  · intro h8
    simp [Perceptron.increment_inputs, h8]
  · intro hmin
    simp [Perceptron.decrement_inputs, hmin]

/-- Witness for C5: a fresh 2-input perceptron under the press sequence
`+, -, -, +`, plus the no-op behaviour at both limits (8-input and 1-input
perceptrons). -/
theorem claim_C5_input_count_invariant_witness :
    pcSizeInv (applyPcOps 0
      (⟨⟨0, 0, 60, 80⟩, false, 0, 0, 2, [1, 2], 0, 0, [0, 0], [none, none]⟩, [])
      [.inc 5, .dec, .dec, .inc 0]).1 ∧
    Perceptron.increment_inputs
      ⟨⟨0, 0, 60, 80⟩, false, 0, 0, 8, List.replicate 8 0, 0, 0,
       List.replicate 8 0, List.replicate 8 none⟩ 3 =
      (true, ⟨⟨0, 0, 60, 80⟩, false, 0, 0, 8, List.replicate 8 0, 0, 0,
       List.replicate 8 0, List.replicate 8 none⟩) ∧
    Perceptron.decrement_inputs 0
      ⟨⟨0, 0, 60, 80⟩, false, 0, 0, 1, [1], 0, 0, [0], [none]⟩ [⟨0, 5, 0⟩] =
      (true, ⟨⟨0, 0, 60, 80⟩, false, 0, 0, 1, [1], 0, 0, [0], [none]⟩,
       [⟨0, 5, 0⟩]) := by
  refine ⟨(claim_C5_input_count_invariant 0 _ [] [.inc 5, .dec, .dec, .inc 0] 0
      ⟨by decide, by decide, by decide, by decide⟩).1,
    (claim_C5_input_count_invariant 0 _ [] [] 3
      ⟨by decide, by decide, by decide, by decide⟩).2.1 rfl,
    (claim_C5_input_count_invariant 0 _ [⟨0, 5, 0⟩] [] 0
      ⟨by decide, by decide, by decide, by decide⟩).2.2 rfl⟩

/-! ### Constructor validation -/

theorem mkPerceptron_some_ok (x y : Int) (n : Int) (ws : List ℚ)
    (b : Option ℚ) (rw : Nat → ℚ) (rb : ℚ)
    (heq : ws.length = (max 1 n).toNat) :
    mkPerceptron x y n (some ws) b rw rb = .ok
      { rect := ⟨x, y, 60, 80⟩, is_dragging := false, drag_offset_x := 0,
        drag_offset_y := 0, num_inputs := (max 1 n).toNat, weights := ws,
        bias := (match b with | none => rb | some bb => bb), output_value := 0,
        input_values := List.replicate (max 1 n).toNat 0,
        input_connections := List.replicate (max 1 n).toNat none } := by
  simp [mkPerceptron, heq]

theorem mkPerceptron_some_error (x y : Int) (n : Int) (ws : List ℚ)
    (b : Option ℚ) (rw : Nat → ℚ) (rb : ℚ)
    (hne : ws.length ≠ (max 1 n).toNat) :
    mkPerceptron x y n (some ws) b rw rb =
      .error "Initial weights length does not match num_inputs" := by
  simp [mkPerceptron, hne]

/-- C8: constructing a Perceptron with an explicit weight list whose length
differs from the Perceptron's input count fails with a `ValueError` rather
than truncating or padding; a matching length succeeds and stores exactly
the given list. -/
theorem claim_C8_weight_length_validation (x y : Int) (n : Int) (ws : List ℚ)
    (b : Option ℚ) (rw : Nat → ℚ) (rb : ℚ) :
    (ws.length ≠ (max 1 n).toNat →
      mkPerceptron x y n (some ws) b rw rb =
        .error "Initial weights length does not match num_inputs") ∧
    (ws.length = (max 1 n).toNat →
      ∃ p, mkPerceptron x y n (some ws) b rw rb = .ok p ∧ p.weights = ws) := by
  constructor
  · intro hne
    exact mkPerceptron_some_error x y n ws b rw rb hne
  · intro heq
    exact ⟨_, mkPerceptron_some_ok x y n ws b rw rb heq, rfl⟩

/-- Witness for C8: requesting 2 inputs with 3 weights fails; with 2
weights it succeeds and stores them. -/
theorem claim_C8_weight_length_validation_witness :
    mkPerceptron 0 0 2 (some [1, 2, 3]) none (fun _ => 0) 0 =
      .error "Initial weights length does not match num_inputs" ∧
    ∃ p, mkPerceptron 0 0 2 (some [1, 2]) none (fun _ => 0) 0 = .ok p ∧
      p.weights = [1, 2] := by
  exact ⟨(claim_C8_weight_length_validation 0 0 2 [1, 2, 3] none
      (fun _ => 0) 0).1 (by decide),
    (claim_C8_weight_length_validation 0 0 2 [1, 2] none
      (fun _ => 0) 0).2 (by decide)⟩

/-- C9: the constructor silently clamps the requested count to
`max(1, num_inputs)` and validates an explicit weight list against the
clamped count: construction with `some ws` succeeds and yields
`num_inputs = (max 1 n)` storing `ws` exactly when `len(ws)` equals the
clamped count. -/
theorem claim_C9_constructor_clamps (x y : Int) (n : Int) (ws : List ℚ)
    (b : Option ℚ) (rw : Nat → ℚ) (rb : ℚ) :
    (∃ p, mkPerceptron x y n (some ws) b rw rb = .ok p ∧
        p.num_inputs = (max 1 n).toNat ∧ p.weights = ws) ↔
      ws.length = (max 1 n).toNat := by
  constructor
  · rintro ⟨p, hp, hn, hw⟩
    by_cases heq : ws.length = (max 1 n).toNat
    · exact heq
    · rw [mkPerceptron_some_error x y n ws b rw rb heq] at hp
      cases hp
  · intro heq
    exact ⟨_, mkPerceptron_some_ok x y n ws b rw rb heq, rfl, rfl⟩

/-- Witness for C9: requesting 0 inputs with the one-element weight list
`[5]` succeeds and yields a 1-input Perceptron. -/
theorem claim_C9_constructor_clamps_witness :
    ∃ p, mkPerceptron 0 0 0 (some [5]) none (fun _ => 0) 0 = .ok p ∧
      p.num_inputs = 1 ∧ p.weights = [5] := by
  have h := (claim_C9_constructor_clamps 0 0 0 [5] none (fun _ => 0) 0).mpr
    (by decide)
  simpa using h

/-! ### Wire-draw cancellation -/

theorem findTargetAux_none (pos : Int × Int) (objs : List EntityI) (k : Nat)
    (h : ∀ e ∈ objs, ∀ i < entNumInputs e, entInputHit e i pos = false) :
    findTargetAux pos objs k = none := by
  induction objs generalizing k with
  | nil => rfl
  | cons e rest ih =>
    have hfind : (List.range (entNumInputs e)).find?
        (fun i => entInputHit e i pos) = none := by
      apply List.find?_eq_none.mpr
      intro i hi
      simp [h e (List.mem_cons_self e rest) i (List.mem_range.mp hi)]
    simp only [findTargetAux, hfind]
    exact ih (k + 1) (fun d hd => h d (List.mem_cons.mpr (Or.inr hd)))

/-- C7: a pointer-up while a wire-draw is in progress whose position lies
in no entity's input-port hit-region cancels the action with no mutation
(objects and registry unchanged), and in all cases — hit or miss — the
transient wire-draw state is reset to
`{drawing: false, start_entity: None, start_point: None}`. -/
theorem claim_C7_cancel_no_mutation (g : GState) (b : Nat) (pos : Int × Int)
    (rw : ℚ) (hd : g.is_drawing_connection = true) :
    ((∀ e ∈ g.objects, ∀ i < entNumInputs e, entInputHit e i pos = false) →
      processEvent g (.up b pos) rw =
        { g with is_drawing_connection := false,
                 connection_start_obj := none,
                 connection_start_pos := none }) ∧
    ((processEvent g (.up b pos) rw).is_drawing_connection = false ∧
     (processEvent g (.up b pos) rw).connection_start_obj = none ∧
     (processEvent g (.up b pos) rw).connection_start_pos = none) := by
  have hp : processEvent g (.up b pos) rw = finalizeUp g pos := by
    simp [processEvent, hd]
  constructor
  · intro h
    have hft : findTarget g.objects pos = none :=
      findTargetAux_none pos g.objects 0 h
    rw [hp]
    unfold finalizeUp
    cases hso : g.connection_start_obj with
    | none => simp
    | some s => simp [hft]
  · rw [hp]
    unfold finalizeUp
    exact ⟨rfl, rfl, rfl⟩

/-! ### Simultaneous drag states (C6) -/

/-- C6 fails on the code: from the initial scene, a primary-button press on
light1's body (index 4) starts its drag, and — with the primary button
still held — a secondary-button press on light2's body (index 5) starts a
second drag via the base-class handler, which accepts any button.
Afterwards both lights have `is_dragging` set, for every choice of the
random initial weights and biases.  (The wire-draw half of the claim does
hold: the transient state is a single global record.) -/
theorem claim_C6_two_drags_reachable (w1 w2 w3 b1 b2 : ℚ) :
    countDragging (processEvent (processEvent (initGState w1 w2 w3 b1 b2)
        (.down 1 (600, 100)) 0) (.down 3 (600, 250)) 0) = 2 ∧
    (processEvent (processEvent (initGState w1 w2 w3 b1 b2)
        (.down 1 (600, 100)) 0) (.down 3 (600, 250)) 0).objects.map
      entIsDragging = [false, false, false, false, true, true] := by
  exact ⟨rfl, rfl⟩

/-! ### Tick-order read semantics (C3) -/

theorem length_updAtP (s : List EntityI) (i : Nat) :
    (updAtP s i).length = s.length := by
  unfold updAtP
  cases h : s.get? i with
  | none => rfl
  | some e => cases e <;> simp

theorem get?_updAtP_ne (s : List EntityI) (i j : Nat) (hij : i ≠ j) :
    (updAtP s i).get? j = s.get? j := by
  unfold updAtP
  cases h : s.get? i with
  | none => rfl
  | some e =>
    cases e with
    | sw a => rfl
    | pc a => exact List.get?_set_ne _ _ hij
    | lt a => rfl

theorem passFold_cons (s : List EntityI) (i : Nat) (l : List Nat) :
    passFold s (i :: l) = passFold (updAtP s i) l := by
  simp [passFold, List.foldl_cons]

theorem length_passFold (s : List EntityI) (l : List Nat) :
    (passFold s l).length = s.length := by
  induction l generalizing s with
  | nil => rfl
  | cons i rest ih =>
    rw [passFold_cons, ih, length_updAtP]

theorem get?_passFold_not_mem (s : List EntityI) (l : List Nat) (j : Nat)
    (h : j ∉ l) : (passFold s l).get? j = s.get? j := by
  induction l generalizing s with
  | nil => rfl
  | cons i rest ih =>
    have hij : i ≠ j := fun he => h (he ▸ List.mem_cons_self i rest)
    rw [passFold_cons, ih (updAtP s i) (fun hm => h (List.mem_cons.mpr (Or.inr hm))),
        get?_updAtP_ne s i j hij]

theorem outputValueAt_congr (s1 s2 : List EntityI) (i : Nat)
    (h : s1.get? i = s2.get? i) : outputValueAt s1 i = outputValueAt s2 i := by
  unfold outputValueAt
  rw [h]

theorem perceptronPass_split (s : List EntityI) (q : Nat) (hq : q < s.length) :
    perceptronPass s =
      passFold (updAtP (passFold s (List.range' 0 q)) q)
        (List.range' (q + 1) (s.length - q - 1)) := by
  unfold perceptronPass
  have h1 := List.range'_append 0 q (s.length - q) 1
  simp only [Nat.zero_add, Nat.one_mul] at h1
  rw [Nat.sub_add_cancel hq.le] at h1
  have h2 : s.length - q = (s.length - q - 1) + 1 := by omega
  rw [List.range_eq_range', ← h1, h2, List.range'_succ]
  unfold passFold
  rw [List.foldl_append, List.foldl_cons]
  simp only [Nat.add_sub_cancel]

/-- C3 (amended): during one Perceptron pass, a Perceptron `Q` at list
position `q` whose input slot `k` refers to the object at position `p`
reads that source's output as already updated this tick when `p < q`
(`p` precedes `q` in the entity list — the value it reads is the one the
pass produces), and the source's previous-tick output when `p ≥ q`.  In the
chain SwitchA → P → Q with P preceding Q in creation order this means
flipping SwitchA at tick T changes both `P.output_value` and
`Q.output_value` already at tick T; a one-tick lag would occur only if Q
preceded P. -/
theorem claim_C3_pass_read_semantics (s : List EntityI) (q p k : Nat)
    (Q : PerceptronS)
    (hq : s.get? q = some (.pc Q))
    (hk : k < Q.num_inputs)
    (hslot : Q.input_connections.getD k none = some p) :
    ∃ Q', (perceptronPass s).get? q = some (.pc Q') ∧
      Q'.input_values.getD k 0 =
        (if p < q then outputValueAt (perceptronPass s) p
         else outputValueAt s p) := by
  have hqlen : q < s.length := by
    by_contra hc
    rw [List.get?_eq_none.mpr (by omega)] at hq
    cases hq
  have hqr0 : q ∉ List.range' 0 q := by
    intro hm
    have := List.mem_range'_1.mp hm
    omega
  have hqr1 : q ∉ List.range' (q + 1) (s.length - q - 1) := by
    intro hm
    have := List.mem_range'_1.mp hm
    omega
  have hs1q : (passFold s (List.range' 0 q)).get? q = some (.pc Q) := by
    rw [get?_passFold_not_mem s _ q hqr0]
    exact hq
  have hupd : updAtP (passFold s (List.range' 0 q)) q =
      (passFold s (List.range' 0 q)).set q
        (.pc (Perceptron.calculate_output (passFold s (List.range' 0 q)) Q)) := by
    unfold updAtP
    rw [hs1q]
  have hlen1 : q < (passFold s (List.range' 0 q)).length := by
    rw [length_passFold]
    exact hqlen
  have hfinal : (perceptronPass s).get? q =
      some (.pc (Perceptron.calculate_output (passFold s (List.range' 0 q)) Q)) := by
    rw [perceptronPass_split s q hqlen,
        get?_passFold_not_mem _ _ q hqr1, hupd,
        List.get?_set_eq_of_lt _ hlen1]
  refine ⟨_, hfinal, ?_⟩
  have hval : (Perceptron.calculate_output (passFold s (List.range' 0 q)) Q).input_values =
      gatherInputs (passFold s (List.range' 0 q)) Q := rfl
  rw [hval, gatherInputs_getD _ Q k hk]
  unfold slotInputValue
  rw [hslot]
  by_cases hpq : p < q
  · rw [if_pos hpq]
    apply outputValueAt_congr
    have hstep1 : (perceptronPass s).get? p =
        (updAtP (passFold s (List.range' 0 q)) q).get? p := by
      rw [perceptronPass_split s q hqlen]
      exact get?_passFold_not_mem _ _ p (fun hm => by
        have := List.mem_range'_1.mp hm
        omega)
    rw [hstep1, hupd, List.get?_set_ne _ _ (by omega)]
  · rw [if_neg hpq]
    apply outputValueAt_congr
    rw [get?_passFold_not_mem s _ p (fun hm => by
          have := List.mem_range'_1.mp hm
          omega)]

/-- The P of the chain SwitchA → P → Q: one input wired to the switch at
index 0, `weights = [1]`, `bias = -1` (so it copies its input's value). -/
def chainP : PerceptronS :=
  ⟨⟨200, 100, 60, 80⟩, false, 0, 0, 1, [1], -1, 0, [0], [some 0]⟩

/-- The Q of the chain, one input wired to P at index 1. -/
def chainQ : PerceptronS :=
  ⟨⟨400, 100, 60, 80⟩, false, 0, 0, 1, [1], -1, 0, [0], [some 1]⟩

/-- The chain scene at tick T, just after SwitchA was flipped on: the
switch already outputs 1, while P and Q still hold their tick-(T-1)
outputs 0 (consistent with the switch having been off). -/
def chainScene : List EntityI :=
  [.sw { initSwitch 50 50 with output_value := 1 }, .pc chainP, .pc chainQ]

/-- Counterexample to C3 as stated: with P and Q processed in creation
order (P before Q), the evaluation tick at T — right after SwitchA was
flipped — updates `P.output_value` to 1 AND `Q.output_value` to 1 in the
same tick, because Q reads P's freshly written value; the claim asserted
`Q.output_value` would not reflect the change until tick T+1 (i.e. would
still be 0 here). -/
theorem claim_C3_counterexample :
    outputValueAt (tick chainScene) 1 = 1 ∧
    outputValueAt (tick chainScene) 2 = 1 := by
  have h3 : List.range 3 = [0, 1, 2] := by decide
  constructor <;>
  · simp only [tick, lightPass, perceptronPass, passFold, chainScene, h3,
      List.foldl_cons, List.foldl_nil, List.length_cons, List.length_nil,
      updAtP, List.get?, outputValueAt, chainP, chainQ, initSwitch,
      Perceptron.calculate_output, gatherInputs, dotSum, step_function,
      slotInputValue, entOutputValue, Light.update_state, List.range_succ,
      List.range_zero, List.map_cons, List.map_nil, List.set, List.zip,
      List.zipWith, List.length_append, List.length_singleton, List.getD,
      Option.getD]
    norm_num

/-- Witness for the amended C3 at the concrete chain: Q (position 2, slot
referring to position 1 = P, and 1 < 2) reads exactly the pass-updated
output of P. -/
theorem claim_C3_pass_read_semantics_witness :
    ∃ Q', (perceptronPass chainScene).get? 2 = some (.pc Q') ∧
      Q'.input_values.getD 0 0 = outputValueAt (perceptronPass chainScene) 1 := by
  have h := claim_C3_pass_read_semantics chainScene 2 1 0 chainQ rfl
    (by decide) rfl
  simpa using h

/-- Witness state for C7: the initial scene with a wire-draw in progress
from switch1's output node. -/
def gC7 : GState :=
  { initGState 0 0 0 0 0 with
    is_drawing_connection := true,
    connection_start_obj := some 0,
    connection_start_pos := some (96, 70) }

/-- Witness for C7: releasing at `(0, 0)` — inside no input-port hit-region
of the scene — cancels with no mutation and resets the transient state. -/
theorem claim_C7_cancel_no_mutation_witness :
    processEvent gC7 (.up 1 (0, 0)) 0 =
      { gC7 with is_drawing_connection := false,
                 connection_start_obj := none,
                 connection_start_pos := none } ∧
    (processEvent gC7 (.up 1 (0, 0)) 0).is_drawing_connection = false := by
  have h := claim_C7_cancel_no_mutation gC7 1 (0, 0) 0 rfl
  exact ⟨h.1 (by decide), h.2.1⟩
